import Mathlib

/-!
Verification of the liqpay-ts-zod schema layer (src/schemas.ts).

The source defines zod schemas that normalize loosely typed payment
parameters (numbers possibly given as strings), apply defaults, and
enforce range, enum and credential constraints.  We embed the runtime
behaviour of those schemas shallowly: JavaScript runtime values that can
reach the schemas are modelled by JSValue, JavaScript numbers by JSNum
(exact rationals plus NaN and signed infinity), and the string-to-number
coercion performed by the builtin Number(value) is modelled by
jsToNumber, following the ECMAScript StringNumericLiteral grammar
(whitespace trimming, decimal literals with fraction and exponent,
Infinity, and unsigned hex, octal and binary literals).
-/

/-- A JavaScript number: an exact finite rational, NaN, or a signed
infinity.  The source manipulates numbers only at small magnitudes, so
the exact-rational model of float arithmetic is faithful there. -/
inductive JSNum where
  | finite (q : ℚ)
  | nan
  | inf (positive : Bool)
  deriving DecidableEq, Repr

/-- A JavaScript runtime value that may be supplied for a schema field:
a number, a string, or anything else (objects, booleans, null, ...),
which the numeric and string schemas of the source uniformly reject. -/
inductive JSValue where
  | num (x : JSNum)
  | str (s : String)
  | other
  deriving DecidableEq, Repr

/-- The whitespace characters stripped by the ECMAScript ToNumber
conversion on strings (StrWhiteSpaceChar: space, tab, line terminators,
vertical tab, form feed, no-break space, BOM). -/
def isJsWhitespace (c : Char) : Bool :=
  c = ' ' || c = '\t' || c = '\n' || c = '\r' || c = '\x0b' || c = '\x0c' ||
  c = ' ' || c = '﻿'

/-- Strip JS whitespace from both ends of a character list. -/
def jsTrim (cs : List Char) : List Char :=
  ((cs.dropWhile isJsWhitespace).reverse.dropWhile isJsWhitespace).reverse

/-- Numeric value of a list of decimal digit characters. -/
def natOfDigits (cs : List Char) : ℕ :=
  cs.foldl (fun a c => a * 10 + (c.toNat - 48)) 0

/-- Numeric value of a list of digits in the given base (hex digits
cover both cases). -/
def natOfBaseDigits (base : ℕ) (cs : List Char) : ℕ :=
  cs.foldl (fun a c =>
    a * base + (if c.toNat ≥ 97 then c.toNat - 87
                else if c.toNat ≥ 65 then c.toNat - 55
                else c.toNat - 48)) 0

/-- Whether a character is a digit of the given base (2, 8, 10 or 16). -/
def isBaseDigit (base : ℕ) (c : Char) : Bool :=
  match base with
  | 2 => c = '0' || c = '1'
  | 8 => '0' ≤ c && c ≤ '7'
  | 16 => c.isDigit || ('a' ≤ c && c ≤ 'f') || ('A' ≤ c && c ≤ 'F')
  | _ => c.isDigit

/-- The exact rational value of a decimal literal with integer part of
value ipv, fraction part of value fpv written with fl digits, and
exponent e, namely (ipv + fpv / 10 ^ fl) * 10 ^ e.  Built with a single
mkRat so that it evaluates by kernel reduction. -/
def decimalValue (ipv fpv fl : ℕ) (e : ℤ) : ℚ :=
  mkRat (((ipv * 10 ^ fl + fpv : ℕ) : ℤ) * 10 ^ e.toNat) (10 ^ (fl + (-e).toNat))

/-- Parse the optional ExponentPart of a decimal literal; the whole
remainder must be consumed.  Returns the exponent, or none on a
malformed exponent. -/
def parseExponent (cs : List Char) : Option ℤ :=
  match cs with
  | [] => some 0
  | c :: rest =>
    if c = 'e' || c = 'E' then
      match rest with
      | '+' :: ds => if ds ≠ [] && ds.all (·.isDigit) then some (natOfDigits ds) else none
      | '-' :: ds => if ds ≠ [] && ds.all (·.isDigit) then some (-(natOfDigits ds : ℤ)) else none
      | ds => if ds ≠ [] && ds.all (·.isDigit) then some (natOfDigits ds) else none
    else none

/-- Parse a StrUnsignedDecimalLiteral other than Infinity:
digits [. digits] [exponent] or . digits [exponent], consuming the whole
input.  Returns the exact rational value, or none if malformed. -/
def parseUnsignedDecimal (cs : List Char) : Option ℚ :=
  let ip := cs.takeWhile (·.isDigit)
  let r1 := cs.dropWhile (·.isDigit)
  match r1 with
  | '.' :: r2 =>
    let fp := r2.takeWhile (·.isDigit)
    let r3 := r2.dropWhile (·.isDigit)
    if ip = [] && fp = [] then none
    else
      match parseExponent r3 with
      | some e => some (decimalValue (natOfDigits ip) (natOfDigits fp) fp.length e)
      | none => none
  | _ =>
    if ip = [] then none
    else
      match parseExponent r1 with
      | some e => some (decimalValue (natOfDigits ip) 0 0 e)
      | none => none

/-- Parse an unsigned non-decimal integer literal 0x.., 0o.. or 0b..
given its digit characters (everything after the two-character prefix). -/
def parseRadixDigits (base : ℕ) (ds : List Char) : JSNum :=
  if ds ≠ [] && ds.all (isBaseDigit base) then .finite (natOfBaseDigits base ds) else .nan

/-- The ECMAScript conversion Number(s) for a string s, as invoked by
the transform in MaybeStringifiedNumberSchema (src/schemas.ts lines
30 to 35): trim whitespace, empty means 0, otherwise parse a signed
decimal literal, a signed Infinity, or an unsigned radix literal;
anything else is NaN. -/
def jsToNumber (s : String) : JSNum :=
  match jsTrim s.toList with
  | [] => .finite 0
  | '+' :: rest =>
    if rest = "Infinity".toList then .inf true
    else match parseUnsignedDecimal rest with
         | some q => .finite q
         | none => .nan
  | '-' :: rest =>
    if rest = "Infinity".toList then .inf false
    else match parseUnsignedDecimal rest with
         | some q => .finite (-q)
         | none => .nan
  | cs =>
    if cs = "Infinity".toList then .inf true
    else match cs with
      | '0' :: 'x' :: ds => parseRadixDigits 16 ds
      | '0' :: 'X' :: ds => parseRadixDigits 16 ds
      | '0' :: 'o' :: ds => parseRadixDigits 8 ds
      | '0' :: 'O' :: ds => parseRadixDigits 8 ds
      | '0' :: 'b' :: ds => parseRadixDigits 2 ds
      | '0' :: 'B' :: ds => parseRadixDigits 2 ds
      | _ =>
        match parseUnsignedDecimal cs with
        | some q => .finite q
        | none => .nan

/-! The enums of src/schemas.ts (lines 5 to 27). -/

/-- PaymentAction (src/schemas.ts lines 5 to 10). -/
inductive PaymentAction where
  | pay | hold | subscribe | paydonate
  deriving DecidableEq, Repr

/-- PaymentCurrency (src/schemas.ts lines 12 to 16). -/
inductive PaymentCurrency where
  | UAH | USD | EUR
  deriving DecidableEq, Repr

/-- PaymentLanguage (src/schemas.ts lines 18 to 21). -/
inductive PaymentLanguage where
  | uk | en
  deriving DecidableEq, Repr

/-- LiqpayPeriodicity (src/schemas.ts lines 23 to 27). -/
inductive LiqpayPeriodicity where
  | day | month | year
  deriving DecidableEq, Repr

/-- Decode a runtime string into a PaymentAction member, as
z.nativeEnum(PaymentAction) accepts it. -/
def PaymentAction.fromString (s : String) : Option PaymentAction :=
  if s = "pay" then some .pay
  else if s = "hold" then some .hold
  else if s = "subscribe" then some .subscribe
  else if s = "paydonate" then some .paydonate
  else none

/-- Decode a runtime string into a PaymentCurrency member. -/
def PaymentCurrency.fromString (s : String) : Option PaymentCurrency :=
  if s = "UAH" then some .UAH
  else if s = "USD" then some .USD
  else if s = "EUR" then some .EUR
  else none

/-- Decode a runtime string into a PaymentLanguage member. -/
def PaymentLanguage.fromString (s : String) : Option PaymentLanguage :=
  if s = "uk" then some .uk
  else if s = "en" then some .en
  else none

/-- Decode a runtime string into a LiqpayPeriodicity member. -/
def LiqpayPeriodicity.fromString (s : String) : Option LiqpayPeriodicity :=
  if s = "day" then some .day
  else if s = "month" then some .month
  else if s = "year" then some .year
  else none

/-- The process-wide configuration read at module load
(src/schemas.ts line 3): the LIQPAY_PUBLIC_KEY and URL environment
values.  We model them as explicit read-only parameters. -/
structure Config where
  LIQPAY_PUBLIC_KEY : String
  URL : String
  deriving DecidableEq, Repr

/-- Which elementary check of the source raised a validation issue,
following the issue codes zod attaches: a union where every branch
failed (the MaybeStringifiedNumberSchema union), a false result from a
refine callback, a string outside a nativeEnum value set, a value of the
wrong primitive type, and a string length below min or above max. -/
inductive IssueKind where
  | invalidUnion | customRefine | invalidEnumValue | invalidType
  | tooSmall | tooBig
  deriving DecidableEq, Repr

/-- One validation issue: the offending object key and the kind of
check that failed. -/
structure Issue where
  path : String
  kind : IssueKind
  deriving DecidableEq, Repr

/-- The error taxonomy of the specification. -/
inductive SpecErrorClass where
  | typeCoercionError | constraintViolationError | credentialMismatchError
  deriving DecidableEq, Repr

/-- Modelled from the spec: the specification's error taxonomy
(TypeCoercionError, ConstraintViolationError, CredentialMismatchError)
as a classification of the issues the source can raise.  A value that
could not be read as the required primitive type (union with no
surviving branch, or wrong primitive type) is a TypeCoercionError; a
failed equality refine on public_key is a CredentialMismatchError;
every other failed check (range refine, enum membership, length) is a
ConstraintViolationError. -/
def specErrorClass : Issue → SpecErrorClass
  | ⟨"public_key", .customRefine⟩ => .credentialMismatchError
  | ⟨_, .invalidUnion⟩ => .typeCoercionError
  | ⟨_, .invalidType⟩ => .typeCoercionError
  | ⟨_, _⟩ => .constraintViolationError

/-- MaybeStringifiedNumberSchema (src/schemas.ts lines 29 to 37):
z.union of a string branch (transform by Number, refine not NaN) and a
plain number branch.  Returns the accepted number, or none when both
branches fail (non-string non-number input, a string whose conversion
is NaN, or the number NaN, which z.number() rejects as an invalid
type). -/
def MaybeStringifiedNumberSchema : JSValue → Option JSNum
  | .str s =>
    match jsToNumber s with
    | .nan => none
    | x => some x
  | .num x =>
    match x with
    | .nan => none
    | x => some x
  | .other => none

/-- LiqpayAmountSchema (src/schemas.ts lines 41 to 46) applied to a
number, as safeParse success: z.number().int().min(1).max(10000).
NaN fails z.number(), infinities fail the integer check, a finite
rational passes when it is an integer between 1 and 10000. -/
def LiqpayAmountSchema : JSNum → Bool
  | .finite q => q.den = 1 && (1 : ℚ) ≤ q && q ≤ (10000 : ℚ)
  | _ => false

/-- LiqpayAPIVersionSchema (src/schemas.ts line 40) applied to a
number, as safeParse success: z.number().int().min(1).max(3). -/
def LiqpayAPIVersionSchema : JSNum → Bool
  | .finite q => q.den = 1 && (1 : ℚ) ≤ q && q ≤ (3 : ℚ)
  | _ => false

/-- The raw input object of CNBSchema.safeParse: each key either absent
(undefined) or carrying a runtime value. -/
structure CNBInput where
  amount : Option JSValue := none
  currency : Option JSValue := none
  action : Option JSValue := none
  subscribe_periodicity : Option JSValue := none
  public_key : Option JSValue := none
  version : Option JSValue := none
  description : Option JSValue := none
  language : Option JSValue := none
  subscribe_date_start : Option JSValue := none
  result_url : Option JSValue := none
  deriving DecidableEq, Repr

/-- The empty input object. -/
def emptyInput : CNBInput := {}

/-- The validated payment request produced by CNBSchema: every field
typed and defaulted. -/
structure PaymentRequest where
  amount : JSNum
  currency : PaymentCurrency
  action : PaymentAction
  subscribe_periodicity : LiqpayPeriodicity
  public_key : String
  version : JSNum
  description : String
  language : PaymentLanguage
  subscribe_date_start : String
  result_url : String
  deriving DecidableEq, Repr

/-- The amount field of UserCNBSchema (src/schemas.ts lines 49 to 52):
MaybeStringifiedNumberSchema.default(20) followed by a refine that
checks LiqpayAmountSchema.safeParse success. -/
def parseAmount (v : Option JSValue) : Except Issue JSNum :=
  match MaybeStringifiedNumberSchema (v.getD (.num (.finite 20))) with
  | none => .error ⟨"amount", .invalidUnion⟩
  | some n => if LiqpayAmountSchema n then .ok n else .error ⟨"amount", .customRefine⟩

/-- The version field of CNBSchema (src/schemas.ts lines 65 to 68):
MaybeStringifiedNumberSchema.default(3) followed by a refine that
checks LiqpayAPIVersionSchema.safeParse success. -/
def parseVersion (v : Option JSValue) : Except Issue JSNum :=
  match MaybeStringifiedNumberSchema (v.getD (.num (.finite 3))) with
  | none => .error ⟨"version", .invalidUnion⟩
  | some n => if LiqpayAPIVersionSchema n then .ok n else .error ⟨"version", .customRefine⟩

/-- The public_key field of CNBSchema (src/schemas.ts lines 61 to 64):
z.string() refined to equal the configured LIQPAY_PUBLIC_KEY, with that
configured value as default. -/
def parsePublicKey (cfg : Config) (v : Option JSValue) : Except Issue String :=
  match v.getD (.str cfg.LIQPAY_PUBLIC_KEY) with
  | .str s => if s = cfg.LIQPAY_PUBLIC_KEY then .ok s else .error ⟨"public_key", .customRefine⟩
  | _ => .error ⟨"public_key", .invalidType⟩

/-- The description field of CNBSchema (src/schemas.ts lines 38 and
69): ShortStringSchema, that is z.string().min(1).max(200), with the
fixed default text. -/
def parseDescription (v : Option JSValue) : Except Issue String :=
  match v.getD (.str "Пожертва команді Soulful") with
  | .str s =>
    if s.length < 1 then .error ⟨"description", .tooSmall⟩
    else if 200 < s.length then .error ⟨"description", .tooBig⟩
    else .ok s
  | _ => .error ⟨"description", .invalidType⟩

/-- A plain z.string() field with a default value:
subscribe_date_start and result_url (src/schemas.ts lines 71 to 72). -/
def parsePlainString (key defaultVal : String) (v : Option JSValue) : Except Issue String :=
  match v.getD (.str defaultVal) with
  | .str s => .ok s
  | _ => .error ⟨key, .invalidType⟩

/-- A z.nativeEnum field with a default member (src/schemas.ts lines
53 to 57 and 70): a string is accepted exactly when it decodes to a
member; a non-string is an invalid type. -/
def parseNativeEnum (decode : String → Option α) (key : String) (dflt : String)
    (v : Option JSValue) : Except Issue α :=
  match v.getD (.str dflt) with
  | .str s =>
    match decode s with
    | some a => .ok a
    | none => .error ⟨key, .invalidEnumValue⟩
  | _ => .error ⟨key, .invalidType⟩

/-- The issue list contributed by one field result. -/
def issuesOf : Except Issue α → List Issue
  | .error i => [i]
  | .ok _ => []

instance {ε α : Type} [DecidableEq ε] [DecidableEq α] : DecidableEq (Except ε α) := fun x y =>
  match x, y with
  | .ok a, .ok b =>
    if h : a = b then .isTrue (by rw [h]) else .isFalse (fun hh => by cases hh; exact h rfl)
  | .ok _, .error _ => .isFalse (fun hh => by cases hh)
  | .error _, .ok _ => .isFalse (fun hh => by cases hh)
  | .error e, .error f =>
    if h : e = f then .isTrue (by rw [h]) else .isFalse (fun hh => by cases hh; exact h rfl)

/-- CNBSchema.safeParse (src/schemas.ts lines 48 to 73): parse every
key of the shape in declaration order; when all succeed, build the
validated PaymentRequest; otherwise report the issues of every failed
key, in shape order, as zod collects them. -/
def CNBSchemaSafeParse (cfg : Config) (inp : CNBInput) : Except (List Issue) PaymentRequest :=
  match parseAmount inp.amount,
        parseNativeEnum PaymentCurrency.fromString "currency" "UAH" inp.currency,
        parseNativeEnum PaymentAction.fromString "action" "pay" inp.action,
        parseNativeEnum LiqpayPeriodicity.fromString "subscribe_periodicity" "month" inp.subscribe_periodicity,
        parsePublicKey cfg inp.public_key,
        parseVersion inp.version,
        parseDescription inp.description,
        parseNativeEnum PaymentLanguage.fromString "language" "uk" inp.language,
        parsePlainString "subscribe_date_start" "2024-01-01 00:00:00" inp.subscribe_date_start,
        parsePlainString "result_url" (cfg.URL ++ "/donate/thankyou") inp.result_url with
  | .ok a, .ok c, .ok ac, .ok sp, .ok pk, .ok ver, .ok d, .ok l, .ok sd, .ok ru =>
    .ok ⟨a, c, ac, sp, pk, ver, d, l, sd, ru⟩
  | ra, rc, rac, rsp, rpk, rv, rd, rl, rsd, rru =>
    .error (issuesOf ra ++ issuesOf rc ++ issuesOf rac ++ issuesOf rsp ++ issuesOf rpk ++
            issuesOf rv ++ issuesOf rd ++ issuesOf rl ++ issuesOf rsd ++ issuesOf rru)

/-! The signing pipeline.  The repository's signing code (base64 of the
canonical JSON of the validated request, and a digest over private_key
concatenated before and after the encoded payload) is not part of
src/, so it is modelled from the specification below. -/

/-- The string value of a PaymentCurrency member. -/
def PaymentCurrency.val : PaymentCurrency → String
  | .UAH => "UAH"
  | .USD => "USD"
  | .EUR => "EUR"

/-- The string value of a PaymentAction member. -/
def PaymentAction.val : PaymentAction → String
  | .pay => "pay"
  | .hold => "hold"
  | .subscribe => "subscribe"
  | .paydonate => "paydonate"

/-- The string value of a PaymentLanguage member. -/
def PaymentLanguage.val : PaymentLanguage → String
  | .uk => "uk"
  | .en => "en"

/-- The string value of a LiqpayPeriodicity member. -/
def LiqpayPeriodicity.val : LiqpayPeriodicity → String
  | .day => "day"
  | .month => "month"
  | .year => "year"

/-- Decimal digits of a natural number, most significant first, by
fuelled recursion (fuel n + 1 always suffices). -/
def natToDigitChars : ℕ → ℕ → List Char
  | 0, _ => []
  | fuel + 1, n =>
    if n < 10 then [Char.ofNat (48 + n)]
    else natToDigitChars fuel (n / 10) ++ [Char.ofNat (48 + n % 10)]

/-- Decimal rendering of a natural number. -/
def renderNat (n : ℕ) : String := String.mk (natToDigitChars (n + 1) n)

/-- Decimal rendering of an integer. -/
def renderInt (i : ℤ) : String :=
  if i < 0 then "-" ++ renderNat (-i).toNat else renderNat i.toNat

/-- Rendering of a JavaScript number for serialization; validated
requests only ever hold finite integers here. -/
def JSNum.render : JSNum → String
  | .finite q => if q.den = 1 then renderInt q.num
                 else renderInt q.num ++ "/" ++ renderNat q.den
  | .nan => "NaN"
  | .inf true => "Infinity"
  | .inf false => "-Infinity"

/-- Modelled from the spec: the canonical serialization of a validated
PaymentRequest (spec 4.2 step 1), a flat JSON object using the field
names of the data model, in declaration order, with no omission or
renaming.  String contents are embedded verbatim (escaping is not
modelled; no claim depends on it). -/
def canonicalSerialize (r : PaymentRequest) : String :=
  "\x7b\"amount\":" ++ r.amount.render ++
  ",\"currency\":\"" ++ r.currency.val ++
  "\",\"action\":\"" ++ r.action.val ++
  "\",\"subscribe_periodicity\":\"" ++ r.subscribe_periodicity.val ++
  "\",\"public_key\":\"" ++ r.public_key ++
  "\",\"version\":" ++ r.version.render ++
  ",\"description\":\"" ++ r.description ++
  "\",\"language\":\"" ++ r.language.val ++
  "\",\"subscribe_date_start\":\"" ++ r.subscribe_date_start ++
  "\",\"result_url\":\"" ++ r.result_url ++ "\"\x7d"

/-- UTF-8 bytes of one character. -/
def utf8BytesOfChar (c : Char) : List ℕ :=
  let n := c.toNat
  if n < 128 then [n]
  else if n < 2048 then [192 + n / 64, 128 + n % 64]
  else if n < 65536 then [224 + n / 4096, 128 + n / 64 % 64, 128 + n % 64]
  else [240 + n / 262144, 128 + n / 4096 % 64, 128 + n / 64 % 64, 128 + n % 64]

/-- UTF-8 bytes of a string. -/
def utf8Bytes (s : String) : List ℕ := (s.toList.map utf8BytesOfChar).flatten

/-- The base64 alphabet. -/
def base64Alphabet : List Char :=
  "ABCDEFGHIJKLMNOPQRSTUVWXYZabcdefghijklmnopqrstuvwxyz0123456789+/".toList

/-- The base64 digit for a 6-bit value. -/
def base64Digit (n : ℕ) : Char := base64Alphabet.getD n '='

/-- Standard base64 encoding of a byte list, with padding. -/
def base64Encode : List ℕ → List Char
  | [] => []
  | [a] => [base64Digit (a / 4), base64Digit (a % 4 * 16), '=', '=']
  | [a, b] => [base64Digit (a / 4), base64Digit (a % 4 * 16 + b / 16), base64Digit (b % 16 * 4), '=']
  | a :: b :: c :: rest =>
    base64Digit (a / 4) :: base64Digit (a % 4 * 16 + b / 16) ::
    base64Digit (b % 16 * 4 + c / 64) :: base64Digit (c % 64) :: base64Encode rest

/-- The output of the signing pipeline (spec 3, SignedPayload). -/
structure SignedPayload where
  params : PaymentRequest
  data : String
  signature : String
  deriving DecidableEq, Repr

/-- Modelled from the spec: the signing pipeline (spec 4.2), for the
repository's signing code that is not part of src/.  Serialize the
validated request canonically, base64-encode it to data, and compute
the digest of private_key concatenated before and after data, base64
encoded.  The digest function itself (SHA1 per the repository
documentation) is an explicit parameter: every claim about this stage
holds for an arbitrary digest. -/
def sign (digest : List ℕ → List ℕ) (privateKey : String) (r : PaymentRequest) : SignedPayload :=
  let data := String.mk (base64Encode (utf8Bytes (canonicalSerialize r)))
  { params := r
    data := data
    signature := String.mk (base64Encode (digest
      (utf8Bytes privateKey ++ utf8Bytes data ++ utf8Bytes privateKey))) }

/-! Helper lemmas about the individual field parsers. -/

theorem parseAmount_none : parseAmount none = .ok (.finite 20) := by decide

theorem parseVersion_none : parseVersion none = .ok (.finite 3) := by decide

theorem parsePublicKey_none (cfg : Config) :
    parsePublicKey cfg none = .ok cfg.LIQPAY_PUBLIC_KEY := by
  simp [parsePublicKey]

theorem parseDescription_none :
    parseDescription none = .ok "Пожертва команді Soulful" := by decide

theorem parsePlainString_none (key d : String) : parsePlainString key d none = .ok d := rfl

theorem parseCurrency_none :
    parseNativeEnum PaymentCurrency.fromString "currency" "UAH" none = .ok .UAH := rfl

theorem parseAction_none :
    parseNativeEnum PaymentAction.fromString "action" "pay" none = .ok .pay := rfl

theorem parsePeriodicity_none :
    parseNativeEnum LiqpayPeriodicity.fromString "subscribe_periodicity" "month" none = .ok .month := rfl

theorem parseLanguage_none :
    parseNativeEnum PaymentLanguage.fromString "language" "uk" none = .ok .uk := rfl

/-- The parse of the empty input object, shared by several results. -/
theorem CNBSchemaSafeParse_empty (cfg : Config) :
    CNBSchemaSafeParse cfg emptyInput =
      .ok ⟨.finite 20, .UAH, .pay, .month, cfg.LIQPAY_PUBLIC_KEY, .finite 3,
           "Пожертва команді Soulful", .uk, "2024-01-01 00:00:00",
           cfg.URL ++ "/donate/thankyou"⟩ := by
  simp only [CNBSchemaSafeParse, emptyInput, parseAmount_none, parseVersion_none,
    parsePublicKey_none, parseDescription_none, parsePlainString_none, parseCurrency_none,
    parseAction_none, parsePeriodicity_none, parseLanguage_none]

/-! Claim theorems. -/

/-- C3: validating the empty input object succeeds and yields exactly
the documented defaults: amount 20, currency UAH, action pay,
subscribe_periodicity month, version 3, the fixed default description,
language uk, subscribe_date_start 2024-01-01 00:00:00, result_url the
configured base URL followed by /donate/thankyou, and public_key the
configured public key; in particular every default passes its own
field validation. -/
theorem empty_input_yields_documented_defaults (cfg : Config) :
    CNBSchemaSafeParse cfg emptyInput =
      .ok ⟨.finite 20, .UAH, .pay, .month, cfg.LIQPAY_PUBLIC_KEY, .finite 3,
           "Пожертва команді Soulful", .uk, "2024-01-01 00:00:00",
           cfg.URL ++ "/donate/thankyou"⟩ :=
  CNBSchemaSafeParse_empty cfg

/-- C10: subscribe_date_start and result_url accept every string: with
all other fields omitted (hence valid by defaulting), validation
succeeds and returns the two supplied strings unchanged, with no
timestamp or URL format check. -/
theorem free_string_fields_accept_any_string (cfg : Config) (s1 s2 : String) :
    CNBSchemaSafeParse cfg
        { emptyInput with subscribe_date_start := some (.str s1),
                          result_url := some (.str s2) } =
      .ok ⟨.finite 20, .UAH, .pay, .month, cfg.LIQPAY_PUBLIC_KEY, .finite 3,
           "Пожертва команді Soulful", .uk, s1, s2⟩ := by
  simp only [CNBSchemaSafeParse, emptyInput, parseAmount_none, parseVersion_none,
    parsePublicKey_none, parseDescription_none, parseCurrency_none,
    parseAction_none, parsePeriodicity_none, parseLanguage_none, parsePlainString,
    Option.getD_some]

/-- C8: the signing operation is a pure deterministic function of the
validated PaymentRequest and the private key: identical inputs give
identical data and signature components, for any digest function, with
no randomness or fresh timestamps. -/
theorem sign_deterministic (digest : List ℕ → List ℕ) (k1 k2 : String)
    (r1 r2 : PaymentRequest) (hk : k1 = k2) (hr : r1 = r2) :
    (sign digest k1 r1).data = (sign digest k2 r2).data ∧
    (sign digest k1 r1).signature = (sign digest k2 r2).signature := by
  subst hk
  subst hr
  exact ⟨rfl, rfl⟩

theorem sign_deterministic_witness :
    (sign id "private" ⟨.finite 20, .UAH, .pay, .month, "pk", .finite 3,
        "d", .uk, "2024-01-01 00:00:00", "u"⟩).data =
      (sign id "private" ⟨.finite 20, .UAH, .pay, .month, "pk", .finite 3,
        "d", .uk, "2024-01-01 00:00:00", "u"⟩).data ∧
    (sign id "private" ⟨.finite 20, .UAH, .pay, .month, "pk", .finite 3,
        "d", .uk, "2024-01-01 00:00:00", "u"⟩).signature =
      (sign id "private" ⟨.finite 20, .UAH, .pay, .month, "pk", .finite 3,
        "d", .uk, "2024-01-01 00:00:00", "u"⟩).signature :=
  sign_deterministic id "private" "private" _ _ rfl rfl

/-- An integer between 1 and 10000 passes LiqpayAmountSchema. -/
theorem LiqpayAmountSchema_intCast (n : ℤ) (h1 : 1 ≤ n) (h2 : n ≤ 10000) :
    LiqpayAmountSchema (.finite (n : ℚ)) = true := by
  have hden : ((n : ℚ)).den = 1 := Rat.den_intCast n
  have hle1 : (1 : ℚ) ≤ (n : ℚ) := by exact_mod_cast h1
  have hle2 : (n : ℚ) ≤ 10000 := by exact_mod_cast h2
  simp [LiqpayAmountSchema, hden, hle1, hle2]

/-- When only the amount key is supplied and its field parse fails, the
whole object parse reports exactly that issue. -/
theorem CNBSchemaSafeParse_amount_error (cfg : Config) (v : JSValue) (i : Issue)
    (h : parseAmount (some v) = .error i) :
    CNBSchemaSafeParse cfg { emptyInput with amount := some v } = .error [i] := by
  simp only [CNBSchemaSafeParse, emptyInput, h, parseVersion_none, parsePublicKey_none,
    parseDescription_none, parsePlainString_none, parseCurrency_none, parseAction_none,
    parsePeriodicity_none, parseLanguage_none, issuesOf, List.append_nil, List.nil_append]

/-- A number value failing LiqpayAmountSchema makes the amount field
fail, on the amount path. -/
theorem parseAmount_bad_num (x : JSNum) (hx : LiqpayAmountSchema x = false) :
    ∃ k, parseAmount (some (.num x)) = .error ⟨"amount", k⟩ := by
  cases x with
  | nan => exact ⟨.invalidUnion, rfl⟩
  | finite q => exact ⟨.customRefine, by simp [parseAmount, MaybeStringifiedNumberSchema, hx]⟩
  | inf b => exact ⟨.customRefine, by simp [parseAmount, MaybeStringifiedNumberSchema, hx]⟩

/-- A string whose numeric conversion fails LiqpayAmountSchema makes
the amount field fail, on the amount path. -/
theorem parseAmount_bad_str (s : String) (hs : LiqpayAmountSchema (jsToNumber s) = false) :
    ∃ k, parseAmount (some (.str s)) = .error ⟨"amount", k⟩ := by
  cases hjs : jsToNumber s with
  | nan => exact ⟨.invalidUnion, by simp [parseAmount, MaybeStringifiedNumberSchema, hjs]⟩
  | finite q =>
    refine ⟨.customRefine, ?_⟩
    rw [hjs] at hs
    simp [parseAmount, MaybeStringifiedNumberSchema, hjs, hs]
  | inf b =>
    refine ⟨.customRefine, ?_⟩
    rw [hjs] at hs
    simp [parseAmount, MaybeStringifiedNumberSchema, hjs, hs]

/-- A successful amount field parse implies the LiqpayAmountSchema
check held on the produced value. -/
theorem parseAmount_ok_schema {v : Option JSValue} {a : JSNum}
    (h : parseAmount v = .ok a) : LiqpayAmountSchema a = true := by
  unfold parseAmount at h
  split at h
  · cases h
  · split at h
    · cases h; assumption
    · cases h

/-- A successful object parse implies the amount field parse succeeded
with the amount of the result. -/
theorem CNBSchemaSafeParse_ok_amount {cfg : Config} {inp : CNBInput} {req : PaymentRequest}
    (h : CNBSchemaSafeParse cfg inp = .ok req) :
    parseAmount inp.amount = .ok req.amount := by
  unfold CNBSchemaSafeParse at h
  split at h
  · cases h
    assumption
  · cases h

/-- C1: every amount that is an integer between 1 and 10000, supplied
as a number or as a numeric string converting to that integer, is
accepted, and the resulting amount is that number (a number, not a
string). -/
theorem amount_int_in_range_accepted (cfg : Config) (n : ℤ) (h1 : 1 ≤ n) (h2 : n ≤ 10000)
    (v : JSValue)
    (hv : v = .num (.finite (n : ℚ)) ∨ ∃ s, v = .str s ∧ jsToNumber s = .finite (n : ℚ)) :
    CNBSchemaSafeParse cfg { emptyInput with amount := some v } =
      .ok ⟨.finite (n : ℚ), .UAH, .pay, .month, cfg.LIQPAY_PUBLIC_KEY, .finite 3,
           "Пожертва команді Soulful", .uk, "2024-01-01 00:00:00",
           cfg.URL ++ "/donate/thankyou"⟩ := by
  have hschema := LiqpayAmountSchema_intCast n h1 h2
  have hm : MaybeStringifiedNumberSchema v = some (.finite (n : ℚ)) := by
    rcases hv with rfl | ⟨s, rfl, hs⟩
    · rfl
    · simp [MaybeStringifiedNumberSchema, hs]
  have hA : parseAmount (some v) = .ok (.finite (n : ℚ)) := by
    simp [parseAmount, hm, hschema]
  simp only [CNBSchemaSafeParse, emptyInput, hA, parseVersion_none, parsePublicKey_none,
    parseDescription_none, parsePlainString_none, parseCurrency_none, parseAction_none,
    parsePeriodicity_none, parseLanguage_none]

theorem amount_int_in_range_accepted_witness :
    CNBSchemaSafeParse ⟨"pk", "u"⟩ { emptyInput with amount := some (.num (.finite ((5 : ℤ) : ℚ))) } =
      .ok ⟨.finite ((5 : ℤ) : ℚ), .UAH, .pay, .month, "pk", .finite 3,
           "Пожертва команді Soulful", .uk, "2024-01-01 00:00:00", "u" ++ "/donate/thankyou"⟩ :=
  amount_int_in_range_accepted ⟨"pk", "u"⟩ 5 (by decide) (by decide) _ (Or.inl rfl)

/-- C2: an amount that is a number failing the integer-in-range check,
or a string whose conversion fails it (including non-numeric strings),
is rejected with an issue on the amount path; and every successfully
validated request has an integer amount between 1 and 10000. -/
theorem amount_invalid_rejected (cfg : Config) (v : JSValue)
    (hbad : (∃ x, v = .num x ∧ LiqpayAmountSchema x = false) ∨
            (∃ s, v = .str s ∧ LiqpayAmountSchema (jsToNumber s) = false)) :
    (∃ k, CNBSchemaSafeParse cfg { emptyInput with amount := some v } =
        .error [⟨"amount", k⟩]) ∧
    (∀ inp req, CNBSchemaSafeParse cfg inp = .ok req →
      ∃ q, req.amount = .finite q ∧ q.den = 1 ∧ (1 : ℚ) ≤ q ∧ q ≤ 10000) := by
  constructor
  · rcases hbad with ⟨x, rfl, hx⟩ | ⟨s, rfl, hs⟩
    · obtain ⟨k, hk⟩ := parseAmount_bad_num x hx
      exact ⟨k, CNBSchemaSafeParse_amount_error cfg _ _ hk⟩
    · obtain ⟨k, hk⟩ := parseAmount_bad_str s hs
      exact ⟨k, CNBSchemaSafeParse_amount_error cfg _ _ hk⟩
  · intro inp req h
    have hok := parseAmount_ok_schema (CNBSchemaSafeParse_ok_amount h)
    cases ha : req.amount with
    | finite q =>
      rw [ha] at hok
      refine ⟨q, rfl, ?_⟩
      have := hok
      simp only [LiqpayAmountSchema, Bool.and_eq_true, decide_eq_true_eq] at this
      exact ⟨this.1.1, this.1.2, this.2⟩
    | nan => rw [ha] at hok; simp [LiqpayAmountSchema] at hok
    | inf b => rw [ha] at hok; simp [LiqpayAmountSchema] at hok

theorem amount_invalid_rejected_witness :
    ∃ k, CNBSchemaSafeParse ⟨"pk", "u"⟩ { emptyInput with amount := some (.num (.finite 0)) } =
      .error [⟨"amount", k⟩] :=
  (amount_invalid_rejected ⟨"pk", "u"⟩ (.num (.finite 0)) (Or.inl ⟨_, rfl, by decide⟩)).1

/-- A nativeEnum field applied to a present string value. -/
theorem parseNativeEnum_some_str {α : Type} (decode : String → Option α) (key dflt s : String) :
    parseNativeEnum decode key dflt (some (.str s)) =
      (match decode s with
       | some a => .ok a
       | none => .error ⟨key, .invalidEnumValue⟩) := rfl

theorem currency_fromString_isSome_iff (s : String) :
    (PaymentCurrency.fromString s).isSome = true ↔ (s = "UAH" ∨ s = "USD" ∨ s = "EUR") := by
  unfold PaymentCurrency.fromString
  split_ifs <;> simp_all

theorem action_fromString_isSome_iff (s : String) :
    (PaymentAction.fromString s).isSome = true ↔
      (s = "pay" ∨ s = "hold" ∨ s = "subscribe" ∨ s = "paydonate") := by
  unfold PaymentAction.fromString
  split_ifs <;> simp_all

theorem periodicity_fromString_isSome_iff (s : String) :
    (LiqpayPeriodicity.fromString s).isSome = true ↔
      (s = "day" ∨ s = "month" ∨ s = "year") := by
  unfold LiqpayPeriodicity.fromString
  split_ifs <;> simp_all

theorem language_fromString_isSome_iff (s : String) :
    (PaymentLanguage.fromString s).isSome = true ↔ (s = "uk" ∨ s = "en") := by
  unfold PaymentLanguage.fromString
  split_ifs <;> simp_all

/-- An undecodable currency string makes the object parse fail on the
currency path. -/
theorem CNBSchemaSafeParse_currency_error (cfg : Config) (s : String)
    (h : PaymentCurrency.fromString s = none) :
    CNBSchemaSafeParse cfg { emptyInput with currency := some (.str s) } =
      .error [⟨"currency", .invalidEnumValue⟩] := by
  have hc : parseNativeEnum PaymentCurrency.fromString "currency" "UAH" (some (.str s)) =
      .error ⟨"currency", .invalidEnumValue⟩ := by
    rw [parseNativeEnum_some_str, h]
  simp only [CNBSchemaSafeParse, emptyInput, hc, parseAmount_none, parseVersion_none,
    parsePublicKey_none, parseDescription_none, parsePlainString_none, parseAction_none,
    parsePeriodicity_none, parseLanguage_none, issuesOf, List.append_nil, List.nil_append]

/-- The object parse with only a currency string supplied succeeds
exactly when the string decodes to a currency member. -/
theorem currency_ok_iff (cfg : Config) (s : String) :
    (∃ req, CNBSchemaSafeParse cfg { emptyInput with currency := some (.str s) } = .ok req) ↔
      (PaymentCurrency.fromString s).isSome = true := by
  constructor
  · rintro ⟨req, hreq⟩
    cases h : PaymentCurrency.fromString s with
    | some c => rfl
    | none => rw [CNBSchemaSafeParse_currency_error cfg s h] at hreq; cases hreq
  · intro h
    cases hc : PaymentCurrency.fromString s with
    | none => rw [hc] at h; cases h
    | some c =>
      refine ⟨⟨.finite 20, c, .pay, .month, cfg.LIQPAY_PUBLIC_KEY, .finite 3,
        "Пожертва команді Soulful", .uk, "2024-01-01 00:00:00",
        cfg.URL ++ "/donate/thankyou"⟩, ?_⟩
      have hcur : parseNativeEnum PaymentCurrency.fromString "currency" "UAH" (some (.str s)) =
          .ok c := by rw [parseNativeEnum_some_str, hc]
      simp only [CNBSchemaSafeParse, emptyInput, hcur, parseAmount_none, parseVersion_none,
        parsePublicKey_none, parseDescription_none, parsePlainString_none, parseAction_none,
        parsePeriodicity_none, parseLanguage_none]

/-- The object parse with only an action string supplied succeeds
exactly when the string decodes to an action member. -/
theorem action_ok_iff (cfg : Config) (s : String) :
    (∃ req, CNBSchemaSafeParse cfg { emptyInput with action := some (.str s) } = .ok req) ↔
      (PaymentAction.fromString s).isSome = true := by
  constructor
  · rintro ⟨req, hreq⟩
    cases h : PaymentAction.fromString s with
    | some c => rfl
    | none =>
      have hac : parseNativeEnum PaymentAction.fromString "action" "pay" (some (.str s)) =
          .error ⟨"action", .invalidEnumValue⟩ := by rw [parseNativeEnum_some_str, h]
      rw [show CNBSchemaSafeParse cfg { emptyInput with action := some (.str s) } =
          .error [⟨"action", .invalidEnumValue⟩] by
        simp only [CNBSchemaSafeParse, emptyInput, hac, parseAmount_none, parseVersion_none,
          parsePublicKey_none, parseDescription_none, parsePlainString_none, parseCurrency_none,
          parsePeriodicity_none, parseLanguage_none, issuesOf, List.append_nil,
          List.nil_append]] at hreq
      cases hreq
  · intro h
    cases hc : PaymentAction.fromString s with
    | none => rw [hc] at h; cases h
    | some c =>
      refine ⟨⟨.finite 20, .UAH, c, .month, cfg.LIQPAY_PUBLIC_KEY, .finite 3,
        "Пожертва команді Soulful", .uk, "2024-01-01 00:00:00",
        cfg.URL ++ "/donate/thankyou"⟩, ?_⟩
      have hac : parseNativeEnum PaymentAction.fromString "action" "pay" (some (.str s)) =
          .ok c := by rw [parseNativeEnum_some_str, hc]
      simp only [CNBSchemaSafeParse, emptyInput, hac, parseAmount_none, parseVersion_none,
        parsePublicKey_none, parseDescription_none, parsePlainString_none, parseCurrency_none,
        parsePeriodicity_none, parseLanguage_none]

/-- The object parse with only a subscribe_periodicity string supplied
succeeds exactly when the string decodes to a periodicity member. -/
theorem periodicity_ok_iff (cfg : Config) (s : String) :
    (∃ req, CNBSchemaSafeParse cfg
        { emptyInput with subscribe_periodicity := some (.str s) } = .ok req) ↔
      (LiqpayPeriodicity.fromString s).isSome = true := by
  constructor
  · rintro ⟨req, hreq⟩
    cases h : LiqpayPeriodicity.fromString s with
    | some c => rfl
    | none =>
      have hsp : parseNativeEnum LiqpayPeriodicity.fromString "subscribe_periodicity" "month"
          (some (.str s)) = .error ⟨"subscribe_periodicity", .invalidEnumValue⟩ := by
        rw [parseNativeEnum_some_str, h]
      rw [show CNBSchemaSafeParse cfg { emptyInput with subscribe_periodicity := some (.str s) } =
          .error [⟨"subscribe_periodicity", .invalidEnumValue⟩] by
        simp only [CNBSchemaSafeParse, emptyInput, hsp, parseAmount_none, parseVersion_none,
          parsePublicKey_none, parseDescription_none, parsePlainString_none, parseCurrency_none,
          parseAction_none, parseLanguage_none, issuesOf, List.append_nil,
          List.nil_append]] at hreq
      cases hreq
  · intro h
    cases hc : LiqpayPeriodicity.fromString s with
    | none => rw [hc] at h; cases h
    | some c =>
      refine ⟨⟨.finite 20, .UAH, .pay, c, cfg.LIQPAY_PUBLIC_KEY, .finite 3,
        "Пожертва команді Soulful", .uk, "2024-01-01 00:00:00",
        cfg.URL ++ "/donate/thankyou"⟩, ?_⟩
      have hsp : parseNativeEnum LiqpayPeriodicity.fromString "subscribe_periodicity" "month"
          (some (.str s)) = .ok c := by rw [parseNativeEnum_some_str, hc]
      simp only [CNBSchemaSafeParse, emptyInput, hsp, parseAmount_none, parseVersion_none,
        parsePublicKey_none, parseDescription_none, parsePlainString_none, parseCurrency_none,
        parseAction_none, parseLanguage_none]

/-- The object parse with only a language string supplied succeeds
exactly when the string decodes to a language member. -/
theorem language_ok_iff (cfg : Config) (s : String) :
    (∃ req, CNBSchemaSafeParse cfg { emptyInput with language := some (.str s) } = .ok req) ↔
      (PaymentLanguage.fromString s).isSome = true := by
  constructor
  · rintro ⟨req, hreq⟩
    cases h : PaymentLanguage.fromString s with
    | some c => rfl
    | none =>
      have hl : parseNativeEnum PaymentLanguage.fromString "language" "uk" (some (.str s)) =
          .error ⟨"language", .invalidEnumValue⟩ := by rw [parseNativeEnum_some_str, h]
      rw [show CNBSchemaSafeParse cfg { emptyInput with language := some (.str s) } =
          .error [⟨"language", .invalidEnumValue⟩] by
        simp only [CNBSchemaSafeParse, emptyInput, hl, parseAmount_none, parseVersion_none,
          parsePublicKey_none, parseDescription_none, parsePlainString_none, parseCurrency_none,
          parseAction_none, parsePeriodicity_none, issuesOf, List.append_nil,
          List.nil_append]] at hreq
      cases hreq
  · intro h
    cases hc : PaymentLanguage.fromString s with
    | none => rw [hc] at h; cases h
    | some c =>
      refine ⟨⟨.finite 20, .UAH, .pay, .month, cfg.LIQPAY_PUBLIC_KEY, .finite 3,
        "Пожертва команді Soulful", c, "2024-01-01 00:00:00",
        cfg.URL ++ "/donate/thankyou"⟩, ?_⟩
      have hl : parseNativeEnum PaymentLanguage.fromString "language" "uk" (some (.str s)) =
          .ok c := by rw [parseNativeEnum_some_str, hc]
      simp only [CNBSchemaSafeParse, emptyInput, hl, parseAmount_none, parseVersion_none,
        parsePublicKey_none, parseDescription_none, parsePlainString_none, parseCurrency_none,
        parseAction_none, parsePeriodicity_none]

/-- C4: each enum field accepts exactly its closed literal set: with
all other fields omitted, validation succeeds for every member string
and fails for every other string; in particular the plausible currency
code GBP is rejected. -/
theorem enum_fields_accept_exactly_their_literal_sets (cfg : Config) (s : String) :
    ((∃ req, CNBSchemaSafeParse cfg { emptyInput with currency := some (.str s) } = .ok req) ↔
        s ∈ ["UAH", "USD", "EUR"]) ∧
    ((∃ req, CNBSchemaSafeParse cfg { emptyInput with action := some (.str s) } = .ok req) ↔
        s ∈ ["pay", "hold", "subscribe", "paydonate"]) ∧
    ((∃ req, CNBSchemaSafeParse cfg
        { emptyInput with subscribe_periodicity := some (.str s) } = .ok req) ↔
        s ∈ ["day", "month", "year"]) ∧
    ((∃ req, CNBSchemaSafeParse cfg { emptyInput with language := some (.str s) } = .ok req) ↔
        s ∈ ["uk", "en"]) ∧
    CNBSchemaSafeParse cfg { emptyInput with currency := some (.str "GBP") } =
      .error [⟨"currency", .invalidEnumValue⟩] := by
  refine ⟨?_, ?_, ?_, ?_, ?_⟩
  · rw [currency_ok_iff, currency_fromString_isSome_iff]
    simp
  · rw [action_ok_iff, action_fromString_isSome_iff]
    simp
  · rw [periodicity_ok_iff, periodicity_fromString_isSome_iff]
    simp
  · rw [language_ok_iff, language_fromString_isSome_iff]
    simp
  · exact CNBSchemaSafeParse_currency_error cfg "GBP" (by decide)

/-- A supplied public_key string different from the configured key
makes the object parse fail on the public_key path with the failed
equality refine. -/
theorem CNBSchemaSafeParse_public_key_error (cfg : Config) (s : String)
    (h : s ≠ cfg.LIQPAY_PUBLIC_KEY) :
    CNBSchemaSafeParse cfg { emptyInput with public_key := some (.str s) } =
      .error [⟨"public_key", .customRefine⟩] := by
  have hpk : parsePublicKey cfg (some (.str s)) = .error ⟨"public_key", .customRefine⟩ := by
    simp [parsePublicKey, h]
  simp only [CNBSchemaSafeParse, emptyInput, hpk, parseAmount_none, parseVersion_none,
    parseDescription_none, parsePlainString_none, parseCurrency_none, parseAction_none,
    parsePeriodicity_none, parseLanguage_none, issuesOf, List.append_nil, List.nil_append]

/-- C5: an omitted public_key is filled with the configured key; a
supplied public_key equal to the configured key is accepted; any other
supplied string fails validation, and the issue it raises is classified
as the credential mismatch error of the specification. -/
theorem public_key_defaulted_and_must_match_config (cfg : Config) (s : String) :
    (∃ req, CNBSchemaSafeParse cfg emptyInput = .ok req ∧
      req.public_key = cfg.LIQPAY_PUBLIC_KEY) ∧
    (s ≠ cfg.LIQPAY_PUBLIC_KEY →
      CNBSchemaSafeParse cfg { emptyInput with public_key := some (.str s) } =
        .error [⟨"public_key", .customRefine⟩] ∧
      specErrorClass ⟨"public_key", .customRefine⟩ = .credentialMismatchError) ∧
    (s = cfg.LIQPAY_PUBLIC_KEY →
      ∃ req, CNBSchemaSafeParse cfg { emptyInput with public_key := some (.str s) } = .ok req ∧
        req.public_key = s) := by
  refine ⟨⟨_, CNBSchemaSafeParse_empty cfg, rfl⟩, ?_, ?_⟩
  · intro h
    exact ⟨CNBSchemaSafeParse_public_key_error cfg s h, rfl⟩
  · intro h
    refine ⟨⟨.finite 20, .UAH, .pay, .month, s, .finite 3,
      "Пожертва команді Soulful", .uk, "2024-01-01 00:00:00",
      cfg.URL ++ "/donate/thankyou"⟩, ?_, rfl⟩
    have hpk : parsePublicKey cfg (some (.str s)) = .ok s := by
      simp [parsePublicKey, h]
    simp only [CNBSchemaSafeParse, emptyInput, hpk, parseAmount_none, parseVersion_none,
      parseDescription_none, parsePlainString_none, parseCurrency_none, parseAction_none,
      parsePeriodicity_none, parseLanguage_none]

theorem public_key_defaulted_and_must_match_config_witness :
    CNBSchemaSafeParse ⟨"pk", "u"⟩ { emptyInput with public_key := some (.str "wrong-key") } =
      .error [⟨"public_key", .customRefine⟩] ∧
    (∃ req, CNBSchemaSafeParse ⟨"pk", "u"⟩ { emptyInput with public_key := some (.str "pk") } =
      .ok req ∧ req.public_key = "pk") :=
  ⟨((public_key_defaulted_and_must_match_config ⟨"pk", "u"⟩ "wrong-key").2.1 (by decide)).1,
   (public_key_defaulted_and_must_match_config ⟨"pk", "u"⟩ "pk").2.2 rfl⟩

/-- When only the version key is supplied and its field parse fails,
the whole object parse reports exactly that issue. -/
theorem CNBSchemaSafeParse_version_error (cfg : Config) (v : JSValue) (i : Issue)
    (h : parseVersion (some v) = .error i) :
    CNBSchemaSafeParse cfg { emptyInput with version := some v } = .error [i] := by
  simp only [CNBSchemaSafeParse, emptyInput, h, parseAmount_none, parsePublicKey_none,
    parseDescription_none, parsePlainString_none, parseCurrency_none, parseAction_none,
    parsePeriodicity_none, parseLanguage_none, issuesOf, List.append_nil, List.nil_append]

/-- C6: a version supplied as a number, or as a numeric string
converting to that number, is accepted exactly when the number is an
integer between 1 and 3, and then the validated version equals it;
otherwise validation fails with an issue identifying the version
field. -/
theorem version_accepted_iff_int_one_to_three (cfg : Config) (q : ℚ) (v : JSValue)
    (hv : v = .num (.finite q) ∨ ∃ s, v = .str s ∧ jsToNumber s = .finite q) :
    ((∃ req, CNBSchemaSafeParse cfg { emptyInput with version := some v } = .ok req ∧
        req.version = .finite q) ↔ (q.den = 1 ∧ (1 : ℚ) ≤ q ∧ q ≤ 3)) ∧
    (¬(q.den = 1 ∧ (1 : ℚ) ≤ q ∧ q ≤ 3) →
      CNBSchemaSafeParse cfg { emptyInput with version := some v } =
        .error [⟨"version", .customRefine⟩]) := by
  have hm : MaybeStringifiedNumberSchema v = some (.finite q) := by
    rcases hv with rfl | ⟨s, rfl, hs⟩
    · rfl
    · simp [MaybeStringifiedNumberSchema, hs]
  cases hb : LiqpayAPIVersionSchema (.finite q) with
  | true =>
    have hV : parseVersion (some v) = .ok (.finite q) := by
      simp [parseVersion, hm, hb]
    have hok : CNBSchemaSafeParse cfg { emptyInput with version := some v } =
        .ok ⟨.finite 20, .UAH, .pay, .month, cfg.LIQPAY_PUBLIC_KEY, .finite q,
             "Пожертва команді Soulful", .uk, "2024-01-01 00:00:00",
             cfg.URL ++ "/donate/thankyou"⟩ := by
      simp only [CNBSchemaSafeParse, emptyInput, hV, parseAmount_none, parsePublicKey_none,
        parseDescription_none, parsePlainString_none, parseCurrency_none, parseAction_none,
        parsePeriodicity_none, parseLanguage_none]
    have hrange : q.den = 1 ∧ (1 : ℚ) ≤ q ∧ q ≤ 3 := by
      simp only [LiqpayAPIVersionSchema, Bool.and_eq_true, decide_eq_true_eq] at hb
      exact ⟨hb.1.1, hb.1.2, hb.2⟩
    refine ⟨⟨fun _ => hrange, fun _ => ⟨_, hok, rfl⟩⟩, fun hneg => absurd hrange hneg⟩
  | false =>
    have hV : parseVersion (some v) = .error ⟨"version", .customRefine⟩ := by
      simp [parseVersion, hm, hb]
    have herr := CNBSchemaSafeParse_version_error cfg v _ hV
    refine ⟨⟨?_, ?_⟩, fun _ => herr⟩
    · rintro ⟨req, hreq, -⟩
      rw [herr] at hreq
      cases hreq
    · intro hR
      have : LiqpayAPIVersionSchema (.finite q) = true := by
        simp [LiqpayAPIVersionSchema, hR.1, hR.2.1, hR.2.2]
      rw [hb] at this
      cases this

theorem version_accepted_iff_int_one_to_three_witness :
    (∃ req, CNBSchemaSafeParse ⟨"pk", "u"⟩
        { emptyInput with version := some (.num (.finite 2)) } = .ok req ∧
      req.version = .finite 2) ∧
    CNBSchemaSafeParse ⟨"pk", "u"⟩ { emptyInput with version := some (.num (.finite 5)) } =
      .error [⟨"version", .customRefine⟩] :=
  ⟨(version_accepted_iff_int_one_to_three ⟨"pk", "u"⟩ 2 _ (Or.inl rfl)).1.mpr
      ⟨by decide, by decide, by decide⟩,
   (version_accepted_iff_int_one_to_three ⟨"pk", "u"⟩ 5 _ (Or.inl rfl)).2 (by decide)⟩

/-- C7: an amount that is a string not convertible to a number, or
neither a string nor a number, fails with the all-branches-failed union
issue, classified as the type coercion error of the specification, and
that classification differs from the constraint violation raised by a
well-typed number outside the range; in particular amount abc fails
with the union issue while amount 20000 fails with the range refine. -/
theorem amount_coercion_error_distinct_from_range_error (cfg : Config) (v : JSValue)
    (hv : (∃ s, v = .str s ∧ jsToNumber s = .nan) ∨ v = .other) :
    (CNBSchemaSafeParse cfg { emptyInput with amount := some v } =
        .error [⟨"amount", .invalidUnion⟩] ∧
      specErrorClass ⟨"amount", .invalidUnion⟩ = .typeCoercionError) ∧
    CNBSchemaSafeParse cfg { emptyInput with amount := some (.str "abc") } =
      .error [⟨"amount", .invalidUnion⟩] ∧
    CNBSchemaSafeParse cfg { emptyInput with amount := some (.num (.finite 20000)) } =
      .error [⟨"amount", .customRefine⟩] ∧
    specErrorClass ⟨"amount", .customRefine⟩ = .constraintViolationError ∧
    SpecErrorClass.typeCoercionError ≠ SpecErrorClass.constraintViolationError := by
  have hm : MaybeStringifiedNumberSchema v = none := by
    rcases hv with ⟨s, rfl, hs⟩ | rfl
    · simp [MaybeStringifiedNumberSchema, hs]
    · rfl
  have hA : parseAmount (some v) = .error ⟨"amount", .invalidUnion⟩ := by
    simp [parseAmount, hm]
  refine ⟨⟨CNBSchemaSafeParse_amount_error cfg v _ hA, rfl⟩,
    CNBSchemaSafeParse_amount_error cfg _ _ (by decide),
    CNBSchemaSafeParse_amount_error cfg _ _ (by decide), rfl, by decide⟩

theorem amount_coercion_error_distinct_from_range_error_witness :
    CNBSchemaSafeParse ⟨"pk", "u"⟩ { emptyInput with amount := some (.str "abc") } =
      .error [⟨"amount", .invalidUnion⟩] ∧
    specErrorClass ⟨"amount", .invalidUnion⟩ = .typeCoercionError :=
  (amount_coercion_error_distinct_from_range_error ⟨"pk", "u"⟩ (.str "abc")
    (Or.inl ⟨"abc", rfl, by decide⟩)).1

/-- An all-whitespace character list trims to the empty list. -/
theorem jsTrim_eq_nil_of_all {cs : List Char} (h : cs.all isJsWhitespace = true) :
    jsTrim cs = [] := by
  have hall : ∀ x ∈ cs, isJsWhitespace x := by simpa [List.all_eq_true] using h
  have h1 : cs.dropWhile isJsWhitespace = [] := List.dropWhile_eq_nil_iff.mpr hall
  simp [jsTrim, h1]

/-- The numeric conversion of an all-whitespace string is zero. -/
theorem jsToNumber_whitespace {s : String} (h : s.toList.all isJsWhitespace = true) :
    jsToNumber s = .finite 0 := by
  unfold jsToNumber
  rw [jsTrim_eq_nil_of_all h]

/-- C9: an amount supplied as the empty string or any whitespace-only
string converts to the number 0 (not a conversion failure), so
validation fails on the range refine on the amount path, not with a
type coercion classification, and never yields a request. -/
theorem whitespace_amount_fails_range_not_coercion (cfg : Config) (s : String)
    (h : s.toList.all isJsWhitespace = true) :
    jsToNumber s = .finite 0 ∧
    CNBSchemaSafeParse cfg { emptyInput with amount := some (.str s) } =
      .error [⟨"amount", .customRefine⟩] ∧
    specErrorClass ⟨"amount", .customRefine⟩ ≠ .typeCoercionError := by
  have hjs := jsToNumber_whitespace h
  refine ⟨hjs, ?_, by decide⟩
  have hA : parseAmount (some (.str s)) = .error ⟨"amount", .customRefine⟩ := by
    simp [parseAmount, MaybeStringifiedNumberSchema, hjs, LiqpayAmountSchema]
  exact CNBSchemaSafeParse_amount_error cfg _ _ hA

theorem whitespace_amount_fails_range_not_coercion_witness :
    jsToNumber "" = .finite 0 ∧
    CNBSchemaSafeParse ⟨"pk", "u"⟩ { emptyInput with amount := some (.str "") } =
      .error [⟨"amount", .customRefine⟩] ∧
    jsToNumber " " = .finite 0 ∧
    CNBSchemaSafeParse ⟨"pk", "u"⟩ { emptyInput with amount := some (.str " ") } =
      .error [⟨"amount", .customRefine⟩] :=
  ⟨(whitespace_amount_fails_range_not_coercion ⟨"pk", "u"⟩ "" (by decide)).1,
   (whitespace_amount_fails_range_not_coercion ⟨"pk", "u"⟩ "" (by decide)).2.1,
   (whitespace_amount_fails_range_not_coercion ⟨"pk", "u"⟩ " " (by decide)).1,
   (whitespace_amount_fails_range_not_coercion ⟨"pk", "u"⟩ " " (by decide)).2.1⟩
